import Mathlib

/-!
Verification of the CaribEx wallet-signature (SIWE) authentication subsystem.

The definitions below are a shallow embedding of the Go source:
  * `pkg/siwe` (`VerifySIWEMessage`, `parseSiweMessage`, `VerifySIWE`),
  * the auth use case (`AuthUseCase.VerifySIWE`, `ValidateSession`),
  * the Redis-backed `SessionRepository` (`GetNonce`, `DeleteNonce`,
    `GetSession`, `DeleteSession`, `SaveSession`, `SaveNonce`),
  * the HTTP controller (`AuthController.AuthenticateSIWE`).

Machine-level conventions: Go strings are modelled as Lean `String`
(scanning is done over `List Char`; the inputs of interest are ASCII, and
the few Unicode-sensitive Go helpers are modelled on the character sets Go
uses for ASCII plus the Latin-1 space characters). Go `time.Time` values
are modelled as `Nat` instants; `time.Now()` is passed in explicitly as
`now`. The external secp256k1 recovery (go-ethereum `crypto.SigToPub` and
`crypto.PubkeyToAddress`) is a pure library function of the digest and the
65-byte signature; it is abstracted as an oracle parameter `EcRecover`,
with the library-documented guarantee that a signature whose length is not
65 bytes is rejected baked into `sigToPubAddr`. A Go runtime panic (index
out of range) is modelled as an explicit `crash` outcome.
-/

deriving instance DecidableEq for Except

namespace CaribEx

/-- Go `unicode.IsSpace` restricted to the characters that can appear in
the ASCII/Latin-1 inputs of this system: space, `\t`, `\n`, `\v`, `\f`,
`\r`, NEL (U+0085) and NBSP (U+00A0). -/
def goIsSpace (c : Char) : Bool :=
  c = ' ' || c = '\t' || c = '\n' || c = '\x0b' || c = '\x0c' || c = '\r' ||
  c = Char.ofNat 0x85 || c = Char.ofNat 0xA0

/-- Go `strings.TrimSpace` on a character list: drop leading and trailing
whitespace. -/
def goTrim (l : List Char) : List Char :=
  ((l.dropWhile goIsSpace).reverse.dropWhile goIsSpace).reverse

/-- Go `strings.ReplaceAll(s, "\r\n", "\n")`: left-to-right,
non-overlapping replacement. -/
def replCRLF : List Char → List Char
  | [] => []
  | '\r' :: '\n' :: cs => '\n' :: replCRLF cs
  | c :: cs => c :: replCRLF cs

/-- Go `strings.Split(s, sep)` for a one-character separator: the list of
(possibly empty) chunks between separators. `splitChar sep []` is `[[]]`,
matching Go, which returns one empty chunk for the empty string. -/
def splitChar (sep : Char) : List Char → List (List Char)
  | [] => [[]]
  | c :: cs =>
    if c = sep then [] :: splitChar sep cs
    else
      match splitChar sep cs with
      | [] => [[c]]
      | x :: xs => (c :: x) :: xs

/-- Whether `p` occurs at the front of `l` (Go `strings.HasPrefix`). -/
def atFront : List Char → List Char → Bool
  | [], _ => true
  | _ :: _, [] => false
  | p :: ps, c :: cs => p = c && atFront ps cs

/-- Go `strings.SplitN(s, sep, 2)` for a non-empty separator: split at the
first occurrence of `sep`, if any. Always returns at least one chunk, so a
`len(parts) < 1` test on the result can never succeed. -/
def goSplitN2 (sep : List Char) : List Char → List (List Char)
  | [] => [[]]
  | c :: cs =>
    if atFront sep (c :: cs) then [[], (c :: cs).drop sep.length]
    else
      match goSplitN2 sep cs with
      | [x] => [c :: x]
      | x :: xs => (c :: x) :: xs
      | [] => [[c]]

/-- ASCII lower-casing of one character (the fragment of Go case folding
relevant to hex account identifiers). -/
def asciiLower (c : Char) : Char :=
  if 'A' ≤ c && c ≤ 'Z' then Char.ofNat (c.toNat + 32) else c

/-- Go `strings.ToLower` on the ASCII fragment. -/
def lowerStr (s : String) : String :=
  String.mk (s.data.map asciiLower)

/-- Go `strings.EqualFold` on the ASCII fragment: equality up to case. -/
def equalFold (a b : List Char) : Bool :=
  a.map asciiLower = b.map asciiLower

/-- The character class `\s` of Go `regexp`: `[\t\n\f\r ]`. -/
def isReSpace (c : Char) : Bool :=
  c = '\t' || c = '\n' || c = '\x0c' || c = '\r' || c = ' '

/-- The submatch of Go `regexp` pattern `lab\s*(.+)` against a line, if the
pattern matches (`FindStringSubmatch`). The engine tries each start
position left to right; a position matches when `lab` occurs there and at
least one character follows it on the line. Greedy `\s*` then leaves the
remainder after the whitespace run as the capture; when everything after
`lab` is whitespace, backtracking makes the capture the final character. -/
def findLabel (lab : List Char) : List Char → Option (List Char)
  | [] => none
  | c :: cs =>
    if atFront lab (c :: cs) then
      match (c :: cs).drop lab.length with
      | [] => findLabel lab cs
      | r :: rs =>
        match (r :: rs).dropWhile isReSpace with
        | [] => some [(r :: rs).getLast (by simp)]
        | r2 :: rs2 => some (r2 :: rs2)
    else findLabel lab cs

/-- Value of one hexadecimal digit (Go `encoding/hex.fromHexChar`),
written over code points: digits are 0x30..0x39, lower-case letters
0x61..0x66, upper-case letters 0x41..0x46. -/
def hexVal (c : Char) : Option Nat :=
  let n := c.toNat
  if 0x30 ≤ n ∧ n ≤ 0x39 then some (n - 0x30)
  else if 0x61 ≤ n ∧ n ≤ 0x66 then some (n - 0x61 + 10)
  else if 0x41 ≤ n ∧ n ≤ 0x46 then some (n - 0x41 + 10)
  else none

/-- Go `hex.DecodeString`: pairs of hex digits to bytes; an odd-length
input or a non-hex character is an error (`none`). -/
def decodeHex : List Char → Option (List Nat)
  | [] => some []
  | [_] => none
  | a :: b :: cs =>
    match hexVal a, hexVal b with
    | some x, some y => (decodeHex cs).map fun r => (16 * x + y) :: r
    | _, _ => none

/-- Go `strings.TrimPrefix(s, "0x")`: drop one leading `0x` if present. -/
def strip0x (l : List Char) : List Char :=
  if atFront ['0', 'x'] l then l.drop 2 else l

/-- UTF-8 byte length of a character list (Go `len` on a string). -/
def utf8Len (l : List Char) : Nat :=
  (l.map Char.utf8Size).sum

/-- The parsed SIWE message, `siwe.SIWEMessage` from `pkg/siwe`. The Go
struct stores `IssuedAt` as a `time.Time` obtained from
`time.Parse(time.RFC3339, trimmedCapture)` with any parse error discarded
(yielding the zero time); we record the trimmed capture text itself, as no
caller reads the parsed value. `Statement` is declared in Go but never
assigned by the parser. -/
structure SIWEMessage where
  domain : String := ""
  address : String := ""
  statement : String := ""
  uri : String := ""
  version : String := ""
  chainID : String := ""
  nonce : String := ""
  issuedAt : String := ""
deriving Repr, DecidableEq

/-- One iteration of the field-extraction loop of `parseSiweMessage`: the
five label patterns (`URI:`, `Version:`, `Chain ID:`, `Nonce:`,
`Issued At:`) tried against one line. Go iterates a map, so the order of
the five attempts on a single line is unspecified, but each label assigns
a distinct field, so the order is immaterial; only `Issued At` trims its
capture. -/
def applyFieldLine (s : SIWEMessage) (line : List Char) : SIWEMessage :=
  let s := match findLabel "URI:".data line with
    | some cap => { s with uri := String.mk cap }
    | none => s
  let s := match findLabel "Version:".data line with
    | some cap => { s with version := String.mk cap }
    | none => s
  let s := match findLabel "Chain ID:".data line with
    | some cap => { s with chainID := String.mk cap }
    | none => s
  let s := match findLabel "Nonce:".data line with
    | some cap => { s with nonce := String.mk cap }
    | none => s
  match findLabel "Issued At:".data line with
  | some cap => { s with issuedAt := String.mk (goTrim cap) }
  | none => s

/-- First line of a list whose trimmed form is non-empty (the address-line
search loop of `parseSiweMessage`). -/
def firstNonBlank : List (List Char) → Option (List Char)
  | [] => none
  | l :: ls => if goTrim l = [] then firstNonBlank ls else some l

/-- The separator of the SIWE domain line. -/
def wantsSep : List Char := " wants you to sign in".data

/-- `siwe.parseSiweMessage` from `pkg/siwe`: split on `\n`; require at
least 6 raw lines; take the text before the first occurrence of
`" wants you to sign in"` on line 1 (the guard `len(parts) < 1` in the Go
source is kept verbatim, although `SplitN` always returns at least one
chunk); the first non-blank later line is the address; then every line is
scanned for the five labelled fields. On error Go returns a partially
populated struct alongside the error, which no caller reads; the `Except`
carries only the error string. -/
def parseSiweMessage (message : String) : Except String SIWEMessage :=
  let lines := splitChar '\n' message.data
  if lines.length < 6 then .error "message too short"
  else
    let parts := goSplitN2 wantsSep (lines.headD [])
    if parts.length < 1 then .error "invalid domain line"
    else
      let dom := String.mk (goTrim (parts.headD []))
      match firstNonBlank (lines.drop 1) with
      | none => .error "no address found"
      | some addrLine =>
        let base : SIWEMessage :=
          { domain := dom, address := String.mk (goTrim addrLine) }
        .ok (lines.foldl applyFieldLine base)

/-- The fixed EIP-191 header of go-ethereum `accounts.TextHash`. -/
def eip191Head : List Char := "\x19Ethereum Signed Message:\n".data

/-- Go `strings.ReplaceAll(m, "\r\n", "\n")` followed by
`strings.TrimSpace`, the normalization applied by `VerifySIWEMessage`
before parsing and hashing. -/
def normalizeMsg (m : String) : String :=
  String.mk (goTrim (replCRLF m.data))

/-- The preimage that `accounts.TextHash` feeds to Keccak-256: the EIP-191
header, the decimal byte length of the message, and the message itself.
`VerifySIWEMessage` applies it to the normalized message. -/
def hashInputOf (msg : String) : List Char :=
  eip191Head ++ (toString (utf8Len msg.data)).data ++ msg.data

/-- The external secp256k1 machinery, `crypto.SigToPub` composed with
`crypto.PubkeyToAddress(...).Hex()`: a pure function from the Keccak
preimage of the digest and the normalized 65-byte signature to the
recovered checksummed hex address, or `none` when recovery fails. -/
structure EcRecover where
  recover : List Char → List Nat → Option (List Char)

/-- `crypto.SigToPub` rejects any signature whose length is not 65 bytes
(go-ethereum `Ecrecover` contract); within that contract the abstract
oracle decides the outcome. -/
def sigToPubAddr (o : EcRecover) (pre : List Char) (sig : List Nat) :
    Option (List Char) :=
  if sig.length = 65 then o.recover pre sig else none

/-- Outcome of the SIWE verification functions. `crash` models a Go
runtime panic (index out of range). -/
inductive SiweOutcome where
  | ok (m : SIWEMessage)
  | err (e : String)
  | crash
deriving Repr, DecidableEq

/-- `siwe.VerifySIWEMessage` from `pkg/siwe`: normalize (CRLF to LF, trim),
parse, hex-decode the signature after removing an optional `0x`, read
`sigBytes[64]` (which panics when the decoded signature is shorter than 65
bytes), normalize a legacy `v >= 27` recovery id, recover the signer
address over the EIP-191 digest of the normalized message, and compare it
case-insensitively with the address claimed in the message. Go returns
`(bool, SIWEMessage, error)`; the boolean is `true` exactly on the `ok`
outcome, and the struct accompanying an error is never read by callers. -/
def verifySIWEMessage (o : EcRecover) (message signature : String) :
    SiweOutcome :=
  let msg := normalizeMsg message
  match parseSiweMessage msg with
  | .error e => .err ("failed to parse SIWE: " ++ e)
  | .ok siwe =>
    match decodeHex (strip0x signature.data) with
    | none => .err "invalid signature format"
    | some sigBytes =>
      match sigBytes.get? 64 with
      | none => .crash
      | some v =>
        let sigBytes := if 27 ≤ v then sigBytes.set 64 (v - 27) else sigBytes
        match sigToPubAddr o (hashInputOf msg) sigBytes with
        | none => .err "failed to recover public key"
        | some recAddr =>
          if equalFold recAddr siwe.address.data then .ok siwe
          else
            .err ("signature mismatch: recovered=" ++ String.mk recAddr ++
                  ", expected=" ++ siwe.address)

/-- `siwe.VerifySIWE` from `pkg/siwe`: run `VerifySIWEMessage`, wrap its
error, then check the parsed domain against the expected domain. The Go
branch `if !isValid` after a nil error is unreachable, since
`VerifySIWEMessage` returns `true` exactly when it returns no error. -/
def verifySIWE (o : EcRecover) (message signature expectedDomain : String) :
    SiweOutcome :=
  match verifySIWEMessage o message signature with
  | .crash => .crash
  | .err e => .err ("failed to verify SIWE message: " ++ e)
  | .ok siwe =>
    if siwe.domain ≠ expectedDomain then
      .err ("domain mismatch: expected " ++ expectedDomain ++ ", got " ++
            siwe.domain)
    else .ok siwe

/-- `auth.Nonce`: value, creation instant, expiry instant. -/
structure NonceRec where
  value : String
  expiresAt : Nat
  createdAt : Nat
deriving Repr, DecidableEq

/-- `auth.Session`: id, bound identity, expiry. The `Nonce` field of the
Go struct is never assigned by `auth.NewSession` and stays empty. -/
structure SessionRec where
  id : String
  userID : String
  walletAddress : String
  nonce : String
  expiresAt : Nat
  createdAt : Nat
deriving Repr, DecidableEq

/-- `user.User` restricted to the fields the authentication flow touches. -/
structure UserRec where
  id : String
  username : String
  walletAddress : String
  role : String
deriving Repr, DecidableEq

/-- The durable state: the Redis keyspaces `nonce:*` and `session:*`
(modelled as association lists keyed by the value after the prefix, since
the two prefixes keep them disjoint) and the user directory. JSON
marshalling of records round-trips and is modelled as the identity. -/
structure Store where
  nonces : List (String × NonceRec)
  sessions : List (String × SessionRec)
  users : List UserRec
deriving Repr, DecidableEq

/-- First binding of a key in an association list (a Redis `GET`). -/
def alookup (k : String) : List (String × β) → Option β
  | [] => none
  | (k₀, v) :: rest => if k₀ = k then some v else alookup k rest

/-- Remove every binding of a key (a Redis `DEL`; keys are unique in
Redis, so on reachable states this removes at most one record). -/
def adelete (k : String) : List (String × β) → List (String × β)
  | [] => []
  | (k₀, v) :: rest =>
    if k₀ = k then adelete k rest else (k₀, v) :: adelete k rest

/-- Insert or overwrite a binding (a Redis `SET`). -/
def aset (k : String) (v : β) (l : List (String × β)) : List (String × β) :=
  (k, v) :: adelete k l

/-- `SessionRepository.GetNonce`: fetch; `redis.Nil` is
"nonce not found"; a fetched record that `Nonce.IsExpired` reports expired
(`time.Now().After(ExpiresAt)`, strict) is deleted and reported as
"nonce expired". -/
def repoGetNonce (st : Store) (now : Nat) (v : String) :
    Except String NonceRec × Store :=
  match alookup v st.nonces with
  | none => (.error "nonce not found", st)
  | some n =>
    if now > n.expiresAt then
      (.error "nonce expired", { st with nonces := adelete v st.nonces })
    else (.ok n, st)

/-- `SessionRepository.DeleteNonce`. -/
def repoDeleteNonce (st : Store) (v : String) : Store :=
  { st with nonces := adelete v st.nonces }

/-- `SessionRepository.GetSession`: same shape as `GetNonce` over the
session keyspace. -/
def repoGetSession (st : Store) (now : Nat) (sid : String) :
    Except String SessionRec × Store :=
  match alookup sid st.sessions with
  | none => (.error "session not found", st)
  | some s =>
    if now > s.expiresAt then
      (.error "session expired",
       { st with sessions := adelete sid st.sessions })
    else (.ok s, st)

/-- `SessionRepository.DeleteSession`. -/
def repoDeleteSession (st : Store) (sid : String) : Store :=
  { st with sessions := adelete sid st.sessions }

/-- `SessionRepository.SaveSession` (`SET` with TTL; the TTL evicts only
at the expiry instant already carried by the record). -/
def repoSaveSession (st : Store) (s : SessionRec) : Store :=
  { st with sessions := aset s.id s st.sessions }

/-- `UserUseCase.GetUserByWalletAddress` backed by the user directory. -/
def findUserByWallet (st : Store) (w : String) : Option UserRec :=
  st.users.find? fun u => u.walletAddress = w

/-- The ambient dependencies of one `AuthUseCase.VerifySIWE` call: the
secp256k1 library, the configured domain, and the UUIDs that
`uuid.New().String()` will yield for a created user and for the session. -/
structure AuthEnv where
  recoverer : EcRecover
  domain : String
  freshUserID : String
  freshSessionID : String

/-- Outcome of `AuthUseCase.VerifySIWE`. -/
inductive AuthOutcome where
  | ok (s : SessionRec) (u : UserRec)
  | err (e : String)
  | crash
deriving Repr, DecidableEq

/-- Session TTL used by the use case: 24 hours, in seconds. -/
def sessionTTL : Nat := 24 * 60 * 60

/-- `auth.NewSession(userID, walletAddress, 24*time.Hour)`. -/
def newSession (env : AuthEnv) (now : Nat) (userID walletAddress : String) :
    SessionRec :=
  { id := env.freshSessionID, userID := userID,
    walletAddress := walletAddress, nonce := "",
    expiresAt := now + sessionTTL, createdAt := now }

/-- Tail of `AuthUseCase.VerifySIWE` shared by both user branches: build
the session and save it. Store writes are modelled as succeeding, so the
`SaveSession` error branch does not arise. -/
def issueSession (env : AuthEnv) (st : Store) (now : Nat)
    (walletAddress : String) (u : UserRec) : AuthOutcome × Store :=
  let s := newSession env now u.id walletAddress
  (.ok s u, repoSaveSession st s)

/-- Steps of `AuthUseCase.VerifySIWE` after the nonce was found: lower-case
the address, delete the used nonce (a delete failure is only logged in Go
and cannot arise in this fault-free store model), fetch or create the user
(`CreateUser` with username `"user_" + walletAddress[:8]`, which panics in
Go when the address has fewer than 8 bytes, and role `customer`), and
issue the session. -/
def siwePhase2 (env : AuthEnv) (st : Store) (now : Nat)
    (siwe : SIWEMessage) (nonce : NonceRec) : AuthOutcome × Store :=
  let walletAddress := lowerStr siwe.address
  let st := repoDeleteNonce st nonce.value
  match findUserByWallet st walletAddress with
  | some u => issueSession env st now walletAddress u
  | none =>
    if walletAddress.length < 8 then (.crash, st)
    else
      let u : UserRec :=
        { id := env.freshUserID,
          username := "user_" ++ walletAddress.take 8,
          walletAddress := walletAddress, role := "customer" }
      issueSession env { st with users := st.users ++ [u] } now
        walletAddress u

/-- Result of the first half of `AuthUseCase.VerifySIWE`: either the call
halts with a result and the rest of the body is skipped, or it proceeds to
`siwePhase2` with the parsed message and the fetched nonce. -/
inductive Phase1Out where
  | halt (r : AuthOutcome)
  | proceed (siwe : SIWEMessage) (nonce : NonceRec)
deriving Repr, DecidableEq

/-- First half of `AuthUseCase.VerifySIWE`: `siwe.VerifySIWE` (parse,
signature, domain), then `SessionRepository.GetNonce`. This is everything
the call does up to and including its first store read. -/
def siwePhase1 (env : AuthEnv) (st : Store) (now : Nat)
    (message signature : String) : Phase1Out × Store :=
  match verifySIWE env.recoverer message signature env.domain with
  | .crash => (.halt .crash, st)
  | .err e => (.halt (.err ("SIWE verification failed: " ++ e)), st)
  | .ok siwe =>
    match repoGetNonce st now siwe.nonce with
    | (.error _, st₁) => (.halt (.err "invalid or expired nonce"), st₁)
    | (.ok nonce, st₁) => (.proceed siwe nonce, st₁)

/-- `AuthUseCase.VerifySIWE` (the `pkg/siwe`-based variant): the two
phases run back-to-back. -/
def verifySIWEUseCase (env : AuthEnv) (st : Store) (now : Nat)
    (message signature : String) : AuthOutcome × Store :=
  match siwePhase1 env st now message signature with
  | (.halt r, st₁) => (r, st₁)
  | (.proceed siwe nonce, st₁) => siwePhase2 env st₁ now siwe nonce

/-- `AuthUseCase.ValidateSession`: fetch (the Redis read path already
deletes an expired record and errors), wrap a fetch error as
"invalid session: ", re-check `Session.IsExpired` (dead after the
repository check, kept verbatim), otherwise return the record unchanged. -/
def validateSession (st : Store) (now : Nat) (sid : String) :
    Except String SessionRec × Store :=
  match repoGetSession st now sid with
  | (.error e, st₁) => (.error ("invalid session: " ++ e), st₁)
  | (.ok s, st₁) =>
    if now > s.expiresAt then
      (.error "session expired", repoDeleteSession st₁ sid)
    else (.ok s, st₁)

/-- A response of `AuthController.AuthenticateSIWE` as seen by the client:
the success JSON (session and user echo; the cookie it also sets carries
the same session id), or the status code and the text bound to the
`"error"` key of the JSON body. -/
inductive HttpOut where
  | okJson (s : SessionRec) (u : UserRec)
  | errJson (status : Nat) (errText : String)
  | crashed
deriving Repr, DecidableEq

/-- `AuthController.AuthenticateSIWE` after request binding: run the use
case; on error answer 401 with body error text
`"authentication failed: " + err.Error()`; on success answer 200. -/
def authenticateSIWE (env : AuthEnv) (st : Store) (now : Nat)
    (message signature : String) : HttpOut × Store :=
  match verifySIWEUseCase env st now message signature with
  | (.err e, st₁) => (.errJson 401 ("authentication failed: " ++ e), st₁)
  | (.ok s u, st₁) => (.okJson s u, st₁)
  | (.crash, st₁) => (.crashed, st₁)

/-! Concrete scenario used by witnesses and counterexamples: a well-formed
SIWE message for domain `example.com` carrying nonce `n1`, a 65-byte
signature, and an oracle modelling a world in which that signature
recovers (a differently-cased spelling of) the claimed address. -/

/-- A well-formed SIWE message claiming address `0xAbCdEf1234` and nonce
`n1`. -/
def demoMsg : String :=
  "example.com wants you to sign in with your Ethereum account:\n" ++
  "0xAbCdEf1234\n\nURI: https://example.com\nVersion: 1\nChain ID: 1\n" ++
  "Nonce: n1\nIssued At: 2024-01-01T00:00:00Z"

/-- A 130-hex-digit signature: 65 bytes of `0x11`. -/
def demoSig : String := "0x" ++ String.mk (List.replicate 130 '1')

/-- Oracle for the world where `demoSig` recovers the upper-cased spelling
of the address claimed in `demoMsg`. -/
def demoOracle : EcRecover := ⟨fun _ _ => some "0xABCDEF1234".data⟩

/-- Environment of a first call (its own session UUID). -/
def demoEnvA : AuthEnv :=
  { recoverer := demoOracle, domain := "example.com",
    freshUserID := "uidA", freshSessionID := "sidA" }

/-- Environment of a second, concurrent call (distinct UUIDs). -/
def demoEnvB : AuthEnv :=
  { recoverer := demoOracle, domain := "example.com",
    freshUserID := "uidB", freshSessionID := "sidB" }

/-- The live nonce `n1` presented by `demoMsg`. -/
def demoNonce : NonceRec := { value := "n1", expiresAt := 1000, createdAt := 400 }

/-- Initial store: the single live nonce, no sessions, no users. -/
def demoStore : Store := { nonces := [("n1", demoNonce)], sessions := [], users := [] }

/-- Oracle for a world where `demoSig` recovers an address other than the
one claimed in `demoMsg`. -/
def demoOracleBad : EcRecover := ⟨fun _ _ => some "0x9999999999".data⟩

/-- Environment whose library recovers a mismatching address. -/
def demoEnvBad : AuthEnv :=
  { recoverer := demoOracleBad, domain := "example.com",
    freshUserID := "uidX", freshSessionID := "sidX" }

/-- A session whose expiry instant is exactly 100. -/
def borderSession : SessionRec :=
  { id := "s1", userID := "u1", walletAddress := "0xabc", nonce := "",
    expiresAt := 100, createdAt := 50 }

/-- Store holding only `borderSession`. -/
def borderStore : Store :=
  { nonces := [], sessions := [("s1", borderSession)], users := [] }

/-- The interleaving in which request A (environment `demoEnvA`) runs up
to and including its `GetNonce` read, request B (environment `demoEnvB`,
same message and signature, hence the same nonce) then runs to completion,
and request A finally resumes with the remainder of the call. Both
requests execute exactly the phases whose concatenation is
`verifySIWEUseCase`. -/
def raceTrace : Option (AuthOutcome × AuthOutcome) :=
  match siwePhase1 demoEnvA demoStore 500 demoMsg demoSig with
  | (.halt _, _) => none
  | (.proceed siwe n, st₁) =>
    let rB := verifySIWEUseCase demoEnvB st₁ 500 demoMsg demoSig
    let rA := siwePhase2 demoEnvA rB.2 500 siwe n
    some (rA.1, rB.1)

/-- Whether an interleaved run ended with both requests authenticated. -/
def bothOk : Option (AuthOutcome × AuthOutcome) → Bool
  | some (.ok _ _, .ok _ _) => true
  | _ => false

/-- Modelled from the spec words for claim C8 only: the number of
non-empty logical lines of a message, to be compared against the length
check the source performs. -/
def specNonEmptyLineCount (m : String) : Nat :=
  ((splitChar '\n' m.data).filter fun l => !l.isEmpty).length

/-! Association-list helper lemmas shared by the claim proofs. -/

theorem alookup_mem {β : Type} {k : String} {v : β} :
    ∀ {l : List (String × β)}, alookup k l = some v → (k, v) ∈ l := by
  intro l
  induction l with
  | nil => intro h; simp [alookup] at h
  | cons p rest ih =>
    intro h
    obtain ⟨k₀, v₀⟩ := p
    by_cases hk : k₀ = k
    · subst hk
      simp [alookup] at h
      simp [h]
    · simp [alookup, hk] at h
      exact List.mem_cons_of_mem _ (ih h)

theorem alookup_adelete_self {β : Type} (k : String)
    (l : List (String × β)) : alookup k (adelete k l) = none := by
  induction l with
  | nil => rfl
  | cons p rest ih =>
    obtain ⟨k₀, v₀⟩ := p
    by_cases hk : k₀ = k
    · simpa [adelete, hk] using ih
    · simpa [adelete, hk, alookup] using ih

theorem alookup_adelete_ne {β : Type} {k k₁ : String} (h : k ≠ k₁)
    (l : List (String × β)) : alookup k (adelete k₁ l) = alookup k l := by
  induction l with
  | nil => rfl
  | cons p rest ih =>
    obtain ⟨k₀, v₀⟩ := p
    by_cases hk : k₀ = k₁
    · subst hk
      have : ¬ (k₀ = k) := fun hc => h (hc ▸ rfl)
      simpa [adelete, alookup, this] using ih
    · by_cases hk2 : k₀ = k <;> simp [adelete, alookup, hk, hk2, h, ih]

theorem alookup_none_adelete {β : Type} {k : String}
    {l : List (String × β)} (h : alookup k l = none) : adelete k l = l := by
  induction l with
  | nil => rfl
  | cons p rest ih =>
    obtain ⟨k₀, v₀⟩ := p
    by_cases hk : k₀ = k
    · simp [alookup, hk] at h
    · simp [alookup, hk] at h
      simp [adelete, hk, ih h]

theorem adelete_length {β : Type} {k : String} {v : β} :
    ∀ {l : List (String × β)}, (l.map Prod.fst).Nodup →
      alookup k l = some v → (adelete k l).length + 1 = l.length := by
  intro l
  induction l with
  | nil => intro _ h; simp [alookup] at h
  | cons p rest ih =>
    intro hnd h
    obtain ⟨k₀, v₀⟩ := p
    simp only [List.map_cons, List.nodup_cons] at hnd
    by_cases hk : k₀ = k
    · subst hk
      have hnone : alookup k₀ rest = none := by
        cases hlk : alookup k₀ rest with
        | none => rfl
        | some w =>
          exact absurd (List.mem_map_of_mem Prod.fst (alookup_mem hlk))
            hnd.1
      simp [adelete, alookup_none_adelete hnone]
    · simp only [alookup, hk, if_false, reduceIte] at h
      simp [adelete, hk, ih hnd.2 h]

/-- C2: on a well-formed message and the signature `0x1234`, whose hex
decoding succeeds with 2 bytes (not 65), `VerifySIWEMessage` reaches the
unguarded read of `sigBytes[64]` and crashes with a Go runtime panic
(index out of range) instead of returning a format error. -/
theorem c2_short_signature_crashes :
    decodeHex (strip0x "0x1234".data) = some [18, 52] ∧
    verifySIWEMessage demoOracle demoMsg "0x1234" = .crash := by decide

/-- C6: a message whose first line does not contain
`" wants you to sign in"` parses successfully, with the whole trimmed
first line as the domain; the `len(parts) < 1` guard of the source can
never fire, since `SplitN` always returns at least one chunk, so the
`"invalid domain line"` error is unreachable. -/
theorem c6_missing_separator_parses :
    goSplitN2 wantsSep "greeting line".data = ["greeting line".data] ∧
    parseSiweMessage "greeting line\n0xAbCdEf1234\nx\ny\nz\nw" =
      .ok { domain := "greeting line", address := "0xAbCdEf1234" } := by
  decide

/-- C7 counterexample: two raw messages that differ only in line endings
and surrounding whitespace produce the same EIP-191 hash preimage, hence
the same digest, because `VerifySIWEMessage` hashes the normalized
message, not the raw bytes received. -/
theorem c7_line_endings_same_digest :
    ("a wants you to sign in\r\nb\r\nc\r\nd\r\ne\r\nNonce: n1" ≠
      "a wants you to sign in\nb\nc\nd\ne\nNonce: n1\n ") ∧
    hashInputOf (normalizeMsg "a wants you to sign in\r\nb\r\nc\r\nd\r\ne\r\nNonce: n1") =
      hashInputOf (normalizeMsg "a wants you to sign in\nb\nc\nd\ne\nNonce: n1\n ") := by
  decide

/-- C7 amended: the digest is computed over the normalized message (line
endings folded to `\n`, surrounding whitespace trimmed), so any two
submissions with the same normalization — in particular two differing
only in line endings or surrounding whitespace — are verified
identically, for every signature and every recovery oracle. -/
theorem c7_verification_uses_normalized (o : EcRecover) (m₁ m₂ sig : String)
    (h : normalizeMsg m₁ = normalizeMsg m₂) :
    verifySIWEMessage o m₁ sig = verifySIWEMessage o m₂ sig := by
  unfold verifySIWEMessage
  rw [h]

/-- C7 witness: the amended theorem applied to the concrete CRLF/LF pair. -/
theorem c7_verification_uses_normalized_witness :
    verifySIWEMessage demoOracle
        "a wants you to sign in\r\nb\r\nc\r\nd\r\ne\r\nNonce: n1" demoSig =
      verifySIWEMessage demoOracle
        "a wants you to sign in\nb\nc\nd\ne\nNonce: n1\n " demoSig :=
  c7_verification_uses_normalized demoOracle
    "a wants you to sign in\r\nb\r\nc\r\nd\r\ne\r\nNonce: n1"
    "a wants you to sign in\nb\nc\nd\ne\nNonce: n1\n " demoSig (by decide)

/-- C8 counterexample: a message with 6 raw lines of which only 2 are
non-empty passes the length check and parses successfully; the source
counts the raw chunks of `strings.Split(message, "\n")`, blanks included,
not non-empty lines. -/
theorem c8_blank_lines_counted :
    specNonEmptyLineCount "a\n\n\n\n\nNonce: x" = 2 ∧
    parseSiweMessage "a\n\n\n\n\nNonce: x" =
      .ok { domain := "a", address := "Nonce: x", nonce := "x" } := by
  decide

/-- C8 amended: the parser fails with `"message too short"` exactly when
splitting the message on `\n` yields fewer than 6 raw lines; blank lines
count toward the 6. -/
theorem c8_six_raw_lines (m : String) :
    parseSiweMessage m = .error "message too short" ↔
      (splitChar '\n' m.data).length < 6 := by
  by_cases hlt : (splitChar '\n' m.data).length < 6
  · simp [parseSiweMessage, hlt]
  · simp only [parseSiweMessage, if_neg hlt]
    constructor
    · intro h
      split at h
      · simp_all
      · split at h <;> simp_all
    · intro h
      exact absurd h hlt

/-- C8 witness: the amended theorem applied to a two-line message. -/
theorem c8_six_raw_lines_witness :
    parseSiweMessage "a\nb" = .error "message too short" :=
  (c8_six_raw_lines "a\nb").mpr (by decide)

/-- C4 counterexample: at the instant `now = expiresAt` the session is
returned as valid (with the store untouched), because `Session.IsExpired`
uses the strict `time.Now().After(ExpiresAt)`; the claim requires
`now >= expiresAt` to yield Unauthenticated. -/
theorem c4_boundary_session_returned :
    validateSession borderStore 100 "s1" = (.ok borderSession, borderStore) := by
  decide

/-- C4 amended: `ValidateSession` returns an error when the record is
absent; when the record is present and `now > expiresAt` (strictly) it
deletes the record and returns an error; when `now <= expiresAt`,
including the boundary instant, it returns the stored session unchanged —
same `userId` and `walletAddress` as stored — and leaves the store
unchanged, so expiry is never extended. -/
theorem c4_validate_session (st : Store) (now : Nat) (sid : String) :
    (alookup sid st.sessions = none →
      validateSession st now sid =
        (.error "invalid session: session not found", st)) ∧
    ∀ s, alookup sid st.sessions = some s →
      (now > s.expiresAt →
        validateSession st now sid =
          (.error "invalid session: session expired",
           { st with sessions := adelete sid st.sessions })) ∧
      (now ≤ s.expiresAt → validateSession st now sid = (.ok s, st)) := by
  refine ⟨fun h => by simp [validateSession, repoGetSession, h],
    fun s hs => ⟨fun hgt => ?_, fun hle => ?_⟩⟩
  · simp [validateSession, repoGetSession, hs, hgt]
  · simp [validateSession, repoGetSession, hs, Nat.not_lt.mpr hle]

/-- C4 witness: the amended theorem applied to `borderStore` one instant
before expiry. -/
theorem c4_validate_session_witness :
    validateSession borderStore 99 "s1" = (.ok borderSession, borderStore) :=
  ((c4_validate_session borderStore 99 "s1").2 borderSession (by decide)).2
    (by decide)

/-- C9: the Redis read paths never hand an expired record to a caller: a
successful `GetSession`/`GetNonce` returns a record with
`now <= expiresAt` and leaves the store unchanged, and a stored record
whose expiry has passed (`now > expiresAt`) is deleted by the read itself,
which returns an error, even though TTL eviction has not yet happened. -/
theorem c9_reads_not_expired (st : Store) (now : Nat) (k : String) :
    (∀ r st₁, repoGetSession st now k = (.ok r, st₁) →
       now ≤ r.expiresAt ∧ st₁ = st) ∧
    (∀ r st₁, repoGetNonce st now k = (.ok r, st₁) →
       now ≤ r.expiresAt ∧ st₁ = st) ∧
    (∀ s, alookup k st.sessions = some s → now > s.expiresAt →
       repoGetSession st now k =
         (.error "session expired",
          { st with sessions := adelete k st.sessions })) ∧
    (∀ n, alookup k st.nonces = some n → now > n.expiresAt →
       repoGetNonce st now k =
         (.error "nonce expired",
          { st with nonces := adelete k st.nonces })) := by
  refine ⟨?_, ?_, ?_, ?_⟩
  · intro r st₁ h
    simp only [repoGetSession] at h
    split at h
    · simp at h
    · split at h
      · simp at h
      · rename_i hexp
        obtain ⟨h₁, h₂⟩ := Prod.mk.injEq .. |>.mp h
        cases h₁
        exact ⟨Nat.not_lt.mp hexp, h₂.symm⟩
  · intro r st₁ h
    simp only [repoGetNonce] at h
    split at h
    · simp at h
    · split at h
      · simp at h
      · rename_i hexp
        obtain ⟨h₁, h₂⟩ := Prod.mk.injEq .. |>.mp h
        cases h₁
        exact ⟨Nat.not_lt.mp hexp, h₂.symm⟩
  · intro s hs hgt
    simp [repoGetSession, hs, hgt]
  · intro n hn hgt
    simp [repoGetNonce, hn, hgt]

/-- C9 witness: both read paths applied to `borderStore` before expiry. -/
theorem c9_reads_not_expired_witness :
    (100 : Nat) ≤ borderSession.expiresAt ∧ borderStore = borderStore :=
  (c9_reads_not_expired borderStore 100 "s1").1 borderSession borderStore
    (by decide)

/-- The second phase of `AuthUseCase.VerifySIWE` (everything after the
nonce was fetched) can only authenticate or crash: every error return of
the use case happens before the nonce is consumed. -/
theorem siwePhase2_no_err (env : AuthEnv) (st : Store) (now : Nat)
    (siwe : SIWEMessage) (n : NonceRec) (e : String) :
    (siwePhase2 env st now siwe n).1 ≠ AuthOutcome.err e := by
  simp only [siwePhase2, issueSession]
  split
  · simp
  · split <;> simp

/-- C10: whenever `AuthUseCase.VerifySIWE` returns an error — which, with
infallible store writes, is exactly a message-parse, signature-format,
signature-recovery, signature-mismatch or domain failure, or a failed
nonce lookup — the user directory and the session store are unchanged,
every live nonce (one with `now <= expiresAt`) is still present
unchanged, and no nonce appears; so the client may retry against the same
still-live nonce. -/
theorem c10_early_failure_state_unchanged (env : AuthEnv) (st : Store)
    (now : Nat) (m sg e : String) (st₁ : Store)
    (h : verifySIWEUseCase env st now m sg = (.err e, st₁)) :
    st₁.users = st.users ∧ st₁.sessions = st.sessions ∧
    (∀ k r, alookup k st.nonces = some r → now ≤ r.expiresAt →
       alookup k st₁.nonces = some r) ∧
    (∀ k, alookup k st.nonces = none → alookup k st₁.nonces = none) := by
  cases hver : verifySIWE env.recoverer m sg env.domain with
  | crash => simp [verifySIWEUseCase, siwePhase1, hver] at h
  | err e₀ =>
    simp only [verifySIWEUseCase, siwePhase1, hver] at h
    obtain ⟨-, h₂⟩ := Prod.mk.injEq .. |>.mp h
    cases h₂
    exact ⟨rfl, rfl, fun k r hk _ => hk, fun k hk => hk⟩
  | ok siwe =>
    cases hget : repoGetNonce st now siwe.nonce with
    | mk res st₂ =>
      cases res with
      | error e₀ =>
        simp only [verifySIWEUseCase, siwePhase1, hver, hget] at h
        obtain ⟨-, h₂⟩ := Prod.mk.injEq .. |>.mp h
        cases h₂
        simp only [repoGetNonce] at hget
        split at hget
        · obtain ⟨-, h₄⟩ := Prod.mk.injEq .. |>.mp hget
          cases h₄
          exact ⟨rfl, rfl, fun k r hk _ => hk, fun k hk => hk⟩
        · rename_i nrec hn
          split at hget
          · rename_i hexp
            obtain ⟨-, h₄⟩ := Prod.mk.injEq .. |>.mp hget
            cases h₄
            refine ⟨rfl, rfl, fun k r hk hlive => ?_, fun k hk => ?_⟩
            · by_cases hkn : k = siwe.nonce
              · subst hkn
                rw [hk] at hn
                cases hn
                exact absurd hexp (Nat.not_lt.mpr hlive)
              · simpa [alookup_adelete_ne hkn] using hk
            · by_cases hkn : k = siwe.nonce
              · subst hkn
                simp [alookup_adelete_self]
              · simpa [alookup_adelete_ne hkn] using hk
          · simp at hget
      | ok nonce =>
        simp only [verifySIWEUseCase, siwePhase1, hver, hget] at h
        exact absurd (congrArg Prod.fst h)
          (siwePhase2_no_err env st₂ now siwe nonce e)

/-- C1: nonce consumption is a separate `GetNonce` followed by a later
`DeleteNonce`, not an atomic fetch-and-delete; in the interleaving where
request A performs its nonce read and request B then runs to completion
before A resumes, both requests presenting the same nonce `n1`
authenticate successfully. -/
theorem c1_nonce_race_both_succeed : bothOk raceTrace = true := by decide

/-- C3 counterexample: the controller answers 401 with
`"authentication failed: " + err.Error()`, so a parse failure names
`message too short` to the client, and a signature mismatch echoes both
the recovered and the claimed address in the client-facing error text;
the body is not the single opaque string `"authentication failed"`. -/
theorem c3_detailed_error_echoed :
    authenticateSIWE demoEnvA demoStore 500 "x" demoSig =
      (.errJson 401 ("authentication failed: SIWE verification failed: " ++
        "failed to verify SIWE message: failed to parse SIWE: " ++
        "message too short"), demoStore) ∧
    authenticateSIWE demoEnvBad demoStore 500 demoMsg demoSig =
      (.errJson 401 ("authentication failed: SIWE verification failed: " ++
        "failed to verify SIWE message: signature mismatch: " ++
        "recovered=0x9999999999, expected=0xAbCdEf1234"), demoStore) ∧
    ("authentication failed: SIWE verification failed: " ++
        "failed to verify SIWE message: failed to parse SIWE: " ++
        "message too short" ≠ "authentication failed") := by decide

/-- C3 amended: every failed authentication attempt surfaces to the client
as HTTP 401 whose error text is `"authentication failed: "` followed by
the full detailed error of the use case — the error kind, and on a
signature mismatch the recovered and claimed addresses, are echoed to the
client rather than kept to server-side logs. -/
theorem c3_error_text_appends_detail (env : AuthEnv) (st : Store)
    (now : Nat) (m sg e : String) (st₁ : Store)
    (h : verifySIWEUseCase env st now m sg = (.err e, st₁)) :
    authenticateSIWE env st now m sg =
      (.errJson 401 ("authentication failed: " ++ e), st₁) := by
  simp [authenticateSIWE, h]

/-- C3 witness: the amended theorem applied to the too-short message. -/
theorem c3_error_text_appends_detail_witness :
    authenticateSIWE demoEnvA demoStore 500 "x" demoSig =
      (.errJson 401 ("authentication failed: " ++
        ("SIWE verification failed: failed to verify SIWE message: " ++
         "failed to parse SIWE: message too short")), demoStore) :=
  c3_error_text_appends_detail demoEnvA demoStore 500 "x" demoSig
    ("SIWE verification failed: failed to verify SIWE message: " ++
     "failed to parse SIWE: message too short") demoStore (by decide)

/-- C5: a successful `AuthUseCase.VerifySIWE` call deletes exactly one
nonce — the one carried by the verified message (`siwe.nonce` of the
`verifySIWE` result for this call's message), which is then absent from
the store — creates
exactly one session record under the call's fresh session id, and creates
at most one user record; no side effect happens twice. Hypotheses: stored
nonce records carry their own key as `Value` (which `SaveNonce`
guarantees), Redis keys are unique, and the generated session UUID is
fresh. -/
theorem c5_success_side_effects (env : AuthEnv) (st : Store) (now : Nat)
    (m sg : String) (sess : SessionRec) (u : UserRec) (st₁ : Store)
    (hwf : ∀ p ∈ st.nonces, (p.2).value = p.1)
    (hnd : (st.nonces.map Prod.fst).Nodup)
    (hsid : alookup env.freshSessionID st.sessions = none)
    (h : verifySIWEUseCase env st now m sg = (.ok sess u, st₁)) :
    (∃ siwe, verifySIWE env.recoverer m sg env.domain = .ok siwe ∧
       alookup siwe.nonce st.nonces ≠ none ∧
       st₁.nonces = adelete siwe.nonce st.nonces ∧
       alookup siwe.nonce st₁.nonces = none) ∧
    st₁.nonces.length + 1 = st.nonces.length ∧
    st₁.sessions = (env.freshSessionID, sess) :: st.sessions ∧
    st₁.sessions.length = st.sessions.length + 1 ∧
    (st₁.users = st.users ∨ ∃ nu, st₁.users = st.users ++ [nu]) := by
  cases hver : verifySIWE env.recoverer m sg env.domain with
  | crash => simp [verifySIWEUseCase, siwePhase1, hver] at h
  | err e₀ => simp [verifySIWEUseCase, siwePhase1, hver] at h
  | ok siwe =>
    cases hget : repoGetNonce st now siwe.nonce with
    | mk res st₂ =>
      cases res with
      | error e₀ => simp [verifySIWEUseCase, siwePhase1, hver, hget] at h
      | ok nonce =>
        simp only [verifySIWEUseCase, siwePhase1, hver, hget] at h
        have hlk : alookup siwe.nonce st.nonces = some nonce ∧ st = st₂ := by
          simp only [repoGetNonce] at hget
          split at hget
          · simp at hget
          · rename_i nrec hn
            split at hget
            · simp at hget
            · obtain ⟨h₁, h₂⟩ := Prod.mk.injEq .. |>.mp hget
              injection h₁ with h₁
              exact ⟨h₁ ▸ hn, h₂⟩
        obtain ⟨hn, rfl⟩ := hlk
        have hval : nonce.value = siwe.nonce := hwf _ (alookup_mem hn)
        have hdel : adelete env.freshSessionID st.sessions = st.sessions :=
          alookup_none_adelete hsid
        simp only [siwePhase2] at h
        split at h
        · rename_i u₀ hfu
          simp only [issueSession, repoSaveSession, repoDeleteNonce,
            newSession, aset] at h
          obtain ⟨h₁, h₂⟩ := Prod.mk.injEq .. |>.mp h
          injection h₁ with h₁ h₃
          cases h₁
          cases h₂
          refine ⟨⟨siwe, rfl, by simp [hn], by simp [hval], ?_⟩, ?_, ?_, ?_, ?_⟩
          · simpa [hval] using alookup_adelete_self siwe.nonce st.nonces
          · simpa [hval] using adelete_length hnd hn
          · simp [hval, hdel]
          · simp [hval, hdel]
          · exact Or.inl rfl
        · split at h
          · simp at h
          · simp only [issueSession, repoSaveSession, repoDeleteNonce,
              newSession, aset] at h
            obtain ⟨h₁, h₂⟩ := Prod.mk.injEq .. |>.mp h
            injection h₁ with h₁ h₃
            cases h₁
            cases h₂
            refine ⟨⟨siwe, rfl, by simp [hn], by simp [hval], ?_⟩, ?_, ?_, ?_, ?_⟩
            · simpa [hval] using alookup_adelete_self siwe.nonce st.nonces
            · simpa [hval] using adelete_length hnd hn
            · simp [hval, hdel]
            · simp [hval, hdel]
            · exact Or.inr ⟨_, rfl⟩

/-- C5 witness: the theorem applied to the concrete successful call on
`demoStore`. -/
theorem c5_success_side_effects_witness :
    (∃ siwe, verifySIWE demoEnvA.recoverer demoMsg demoSig demoEnvA.domain =
         .ok siwe ∧
       alookup siwe.nonce demoStore.nonces ≠ none ∧
       (Store.mk [] [("sidA", newSession demoEnvA 500 "uidA" "0xabcdef1234")]
         [UserRec.mk "uidA" "user_0xabcdef" "0xabcdef1234" "customer"]).nonces =
         adelete siwe.nonce demoStore.nonces ∧
       alookup siwe.nonce
         (Store.mk [] [("sidA", newSession demoEnvA 500 "uidA" "0xabcdef1234")]
           [UserRec.mk "uidA" "user_0xabcdef" "0xabcdef1234" "customer"]).nonces =
         none) ∧
    (Store.mk [] [("sidA", newSession demoEnvA 500 "uidA" "0xabcdef1234")]
      [UserRec.mk "uidA" "user_0xabcdef" "0xabcdef1234" "customer"]).nonces.length + 1 =
      demoStore.nonces.length ∧
    (Store.mk [] [("sidA", newSession demoEnvA 500 "uidA" "0xabcdef1234")]
      [UserRec.mk "uidA" "user_0xabcdef" "0xabcdef1234" "customer"]).sessions =
      ("sidA", newSession demoEnvA 500 "uidA" "0xabcdef1234") :: demoStore.sessions ∧
    (Store.mk [] [("sidA", newSession demoEnvA 500 "uidA" "0xabcdef1234")]
      [UserRec.mk "uidA" "user_0xabcdef" "0xabcdef1234" "customer"]).sessions.length =
      demoStore.sessions.length + 1 ∧
    ((Store.mk [] [("sidA", newSession demoEnvA 500 "uidA" "0xabcdef1234")]
       [UserRec.mk "uidA" "user_0xabcdef" "0xabcdef1234" "customer"]).users =
       demoStore.users ∨
     ∃ nu, (Store.mk [] [("sidA", newSession demoEnvA 500 "uidA" "0xabcdef1234")]
       [UserRec.mk "uidA" "user_0xabcdef" "0xabcdef1234" "customer"]).users =
       demoStore.users ++ [nu]) :=
  c5_success_side_effects demoEnvA demoStore 500 demoMsg demoSig
    (newSession demoEnvA 500 "uidA" "0xabcdef1234")
    (UserRec.mk "uidA" "user_0xabcdef" "0xabcdef1234" "customer")
    (Store.mk [] [("sidA", newSession demoEnvA 500 "uidA" "0xabcdef1234")]
      [UserRec.mk "uidA" "user_0xabcdef" "0xabcdef1234" "customer"])
    (by decide) (by decide) (by decide) (by decide)

/-- C10 witness: a parse failure (one-line message) leaves the concrete
store untouched. -/
theorem c10_early_failure_state_unchanged_witness :
    demoStore.users = demoStore.users ∧
    demoStore.sessions = demoStore.sessions ∧
    (∀ k r, alookup k demoStore.nonces = some r → 500 ≤ r.expiresAt →
       alookup k demoStore.nonces = some r) ∧
    (∀ k, alookup k demoStore.nonces = none →
       alookup k demoStore.nonces = none) :=
  c10_early_failure_state_unchanged demoEnvA demoStore 500 "x" demoSig
    ("SIWE verification failed: failed to verify SIWE message: " ++
     "failed to parse SIWE: message too short") demoStore (by decide)

end CaribEx
